import Mathlib

/-!
Verification development for the document ingestion pipeline of
`orangecontrib/text/import_documents.py`.

The Python module is shallowly embedded below.  File-system contents,
network fetches and the third-party parsing libraries (docx2txt, odf,
pdfminer, BeautifulSoup, pandas' csv parser, yaml) are external
collaborators of the module; they enter the model as explicit oracle
functions giving, for each path, the outcome (content or raised
exception) of the corresponding external call.  Everything that the
module itself computes — registry dispatch, suffix extraction, glob
filtering, the scan walk, the read loops, progress batching,
cancellation checks, corpus assembly and the metadata join — is
translated directly from the source.
-/

namespace ImportDocs

/-! ### Path helpers (pathlib / os.path, POSIX semantics)

`pathlib.Path(p).name` is the last `/`-separated component;
`suffix` is the part of the name from its last dot, provided that dot
is neither the first nor the last character of the name;
`stem` is the name with the suffix removed. -/

/-- `str.split('/')` on the character list (the helpers below avoid the
core `String` functions, whose well-founded definitions do not reduce;
semantics is Python's `split`: `"a/b" ↦ ["a", "b"]`, `"/a" ↦ ["", "a"]`). -/
def splitChar (sep : Char) : List Char → List (List Char)
  | [] => [[]]
  | c :: rest =>
    let r := splitChar sep rest
    if c = sep then [] :: r
    else
      match r with
      | [] => [[c]]
      | h :: t => (c :: h) :: t

def splitSlash (s : String) : List String :=
  (splitChar '/' s.data).map String.mk

/-- Lowercasing as `str.lower()` (ASCII suffices for the pipeline's
patterns and names). -/
def toLowerStr (s : String) : String :=
  String.mk (s.data.map Char.toLower)

def endsWithSlash (s : String) : Bool :=
  s.data.getLast? = some '/'

/-- `pathlib.Path(p).name`: last path component. -/
def pathName (p : String) : String :=
  ((splitSlash p).getLast?).getD ""

/-- Suffix of a file *name* (list-of-chars form): `name[i:]` for the last
dot position `i` when `0 < i < len(name) - 1`, else empty
(mirrors `pathlib.PurePath.suffix`). -/
def nameSuffix (cs : List Char) : List Char :=
  match ((List.range cs.length).filter (fun i => cs.get? i = some '.')).getLast? with
  | some i => if 0 < i ∧ i < cs.length - 1 then cs.drop i else []
  | none => []

/-- `pathlib.Path(p).suffix`. -/
def pathSuffix (p : String) : String :=
  String.mk (nameSuffix (pathName p).data)

/-- `pathlib.Path(p).stem`: the name with its suffix removed. -/
def pathStem (p : String) : String :=
  let n := (pathName p).data
  String.mk (n.take (n.length - (nameSuffix n).length))

/-- Category label in `make_text_data`: `PurePath(path).parent.parts[-1] or "None"`.
For a path with at least one directory component this is that directory's
name (`"/"` for a file directly under the filesystem root).  The source
would raise `IndexError` on a bare relative filename, but every scanned
path carries the scan-root prefix, so that branch is unreachable; the
model returns the documented `"None"` fallback there. -/
def pathCategory (p : String) : String :=
  match ((splitSlash p).dropLast).getLast? with
  | some c => if c = "" then "/" else c
  | none => "None"

/-- `os.path.join(dir, name)` for the shapes the scanner produces:
inserts a `/` separator unless `dir` already ends with one. -/
def joinP (dir name : String) : String :=
  if endsWithSlash dir then dir ++ name else dir ++ "/" ++ name

/-! ### Shell-style glob matching (`fnmatch.fnmatch`, POSIX)

The source only ever supplies patterns built from literal characters and
`*` (`"*.txt"`, `".*"`, …); `?` is also supported here.  On POSIX,
`fnmatch.fnmatch` applies no case folding itself; the module's
`matches_any` lowercases the candidate name explicitly. -/

/-- Glob matching with explicit fuel (each step consumes one unit and
shrinks `pattern length + string length`, so any fuel above that sum is
enough; the fuel only makes the recursion structural). -/
def globMatchF : Nat → List Char → List Char → Bool
  | 0, _, _ => false
  | _ + 1, [], [] => true
  | _ + 1, [], _ :: _ => false
  | fuel + 1, '*' :: ps, s =>
    globMatchF fuel ps s ||
      (match s with
       | [] => false
       | _ :: s' => globMatchF fuel ('*' :: ps) s')
  | _ + 1, '?' :: _, [] => false
  | fuel + 1, '?' :: ps, _ :: s => globMatchF fuel ps s
  | _ + 1, _ :: _, [] => false
  | fuel + 1, c :: ps, c' :: s => c = c' && globMatchF fuel ps s

def globMatch (ps s : List Char) : Bool :=
  globMatchF (ps.length + s.length + 1) ps s

/-- `matches_any(fname, patterns)` from the source: the lowercased name
matches at least one pattern. -/
def matches_any (fname : String) (patterns : List String) : Bool :=
  patterns.any (fun pat => globMatch pat.data (toLowerStr fname).data)

/-- The hidden-path glob `".*"` used to prune directories. -/
def hiddenGlob : String := ".*"

/-! ### The local scanner (`ImportDocuments.scan`)

`os.walk(topdir)` is modelled by a finite directory tree.  The source
iterates over a copy of `dirnames`, removing every name that matches the
hidden glob `".*"` so `os.walk` never descends into hidden directories;
skipping those subtrees during the recursion below is the same pruning.
Files of a directory are emitted (filtered through the include/exclude
patterns) before its subdirectories are walked, in listed order, which
is exactly the order `paths = paths + [...]` accumulates them. -/

mutual

inductive FSTree where
  | dir : String → List String → FSForest → FSTree

inductive FSForest where
  | nil : FSForest
  | cons : FSTree → FSForest → FSForest

end

/-- The directory's name, as `os.walk` reports it in `dirnames` (the
hidden-glob prune inspects exactly this name). -/
def FSTree.dirName : FSTree → String
  | .dir n _ _ => n

mutual

def scanDir (inc exc : List String) : String → FSTree → List String
  | dirpath, .dir _ files subdirs =>
    (files.filter (fun f => matches_any f inc && !matches_any f exc)).map
        (fun f => joinP dirpath f) ++
      scanSubdirs inc exc dirpath subdirs
  termination_by structural _ t => t

def scanSubdirs (inc exc : List String) : String → FSForest → List String
  | _, .nil => []
  | dirpath, .cons d ds =>
    (if globMatch hiddenGlob.data d.dirName.data then []
     else scanDir inc exc (joinP dirpath d.dirName) d) ++
      scanSubdirs inc exc dirpath ds
  termination_by structural _ f => f

end

/-- `ImportDocuments.scan` with its default arguments: include defaults to
`("*",)` when `None` is passed, exclude defaults to `(".*",)`. -/
def scan (topdir : String) (inc : Option (List String)) (exc : List String := [hiddenGlob])
    (t : FSTree) : List String :=
  scanDir (inc.getD ["*"]) exc topdir t

/-! ### The remote scanner (`ImportDocuments.scan_url`)

The `serverfiles` listing is an external collaborator; it enters as an
`Except`-valued argument: `.error` is a `ConnectionError` (which the
source converts to an empty result), `.ok files` the list of
path-component lists the server returned. -/

/-- `"/".join(filename)` for a listing entry. -/
def joinSlashList : List String → String
  | [] => ""
  | [x] => x
  | x :: xs => x ++ "/" ++ joinSlashList xs

def scanUrl (topdir : String) (listing : Except Unit (List (List String)))
    (inc exc : List String) : List String :=
  match listing with
  | .error _ => []
  | .ok files =>
    let incl := if inc.isEmpty then ["*"] else inc
    (files.map (fun f => topdir ++ joinSlashList f)).filter
      (fun p => matches_any p incl && !matches_any p exc)

/-! ### Data model -/

/-- A pandas `DataFrame` as the metadata readers produce it: named
columns and rows of cells, a missing cell (`NaN`) being `none`. -/
structure MetaTable where
  columns : List String
  rows : List (List (Option String))
deriving DecidableEq

/-- What a reader's `read_file` leaves in `self.content`: plain text for
the document formats, a table for csv, a mapping for yaml. -/
inductive Content where
  | text : String → Content
  | table : MetaTable → Content
  | mapping : List (String × String) → Content
deriving DecidableEq

/-- The `TextData` namedtuple `(name, path, ext, category, content)`. -/
structure TextData where
  name : String
  path : String
  ext : List String
  category : String
  content : Content
deriving DecidableEq

/-- One progress notification: `namespace(progress=..., lastpath=..., batch=...)`.
The float `len(text_data) / n_paths` is kept as the exact
numerator/denominator pair.  `batch` holds snapshots of the `text_data`
list (the source appends the list object itself; at emission time the
batch always has exactly one element whose value is the `text_data`
list as of the preceding append, which the snapshot records). -/
structure Report where
  progressNum : Nat
  progressDen : Nat
  lastpath : String
  batch : List (List TextData)
deriving DecidableEq

/-! ### The reader registry

`Reader` subclasses are collected by the `Registry` metaclass in
definition order; `get_reader` extracts the path's suffix and returns
the first registered subclass whose `ext` list contains it, falling back
to the base `Reader` (whose `read_file` unconditionally raises
`NotImplementedError`). -/

inductive ReaderKind where
  | txt | docx | odt | pdf | xml | csvMeta | yamlMeta | url | base
deriving DecidableEq

/-- The `ext` class attribute of each reader. -/
def readerExt : ReaderKind → List String
  | .txt => [".txt"]
  | .docx => [".docx"]
  | .odt => [".odt"]
  | .pdf => [".pdf"]
  | .xml => [".xml"]
  | .csvMeta => [".csv"]
  | .yamlMeta => [".yaml"]
  | .url => [".url"]
  | .base => []

/-- `Reader.registry` in subclass definition order. -/
def registry : List ReaderKind :=
  [.txt, .docx, .odt, .pdf, .xml, .csvMeta, .yamlMeta, .url]

/-- `Reader.get_reader(path)`. -/
def get_reader (path : String) : ReaderKind :=
  match registry.find? (fun r => pathSuffix path ∈ readerExt r) with
  | some r => r
  | none => .base

/-- Outcomes of the external calls each `read_file` makes (file system,
network, third-party parsers): for each path either the produced content
or a raised exception (`.error`). -/
structure Oracle where
  txt : String → Except Unit String
  docx : String → Except Unit String
  odt : String → Except Unit String
  pdf : String → Except Unit String
  xml : String → Except Unit String
  csv : String → Except Unit MetaTable
  yamlMap : String → Except Unit (List (String × String))
  urlResolve : String → Except Unit Unit
  urlWrite : String → Except Unit Unit
  urlContent : String → Except Unit Content

deriving instance DecidableEq for Except

/-- Result of `UrlReader.read_file` with the temporary-file lifecycle made
explicit.  The fetch has three externally fallible stages, in source
order: `resolve` covers everything before a temporary file exists —
redirect resolution, `urlopen`, the content-disposition header, and the
`NamedTemporaryFile(...)` call itself; `writeTemp` is the
`f.write(response.read())` body of the `with` block, which runs after
the file has been created, so a network failure while reading the
response or an I/O failure while writing it leaves the file on disk;
`fetchContent` is the delegated `Reader.get_reader(f.name).read_file()`
extraction on the temporary file.  The file is created with
`delete=False` and `os.remove(f.name)` runs only after the extraction
succeeded, so a failure in either post-creation stage leaves the file
behind. -/
structure UrlFetchResult where
  outcome : Except Unit Content
  tempFileCreated : Bool
  tempFileDeleted : Bool
deriving DecidableEq

def urlReadFile (resolve writeTemp : Except Unit Unit)
    (fetchContent : Except Unit Content) : UrlFetchResult :=
  match resolve with
  | .error _ => ⟨.error (), false, false⟩
  | .ok _ =>
    match writeTemp with
    | .error _ => ⟨.error (), true, false⟩
    | .ok _ =>
      match fetchContent with
      | .error _ => ⟨.error (), true, false⟩
      | .ok c => ⟨.ok c, true, true⟩

/-- `read_file` of each reader, at the boundary to its external parser.
The base reader raises `NotImplementedError` unconditionally. -/
def read_file (rk : ReaderKind) (o : Oracle) (p : String) : Except Unit Content :=
  match rk with
  | .txt => (o.txt p).map Content.text
  | .docx => (o.docx p).map Content.text
  | .odt => (o.odt p).map Content.text
  | .pdf => (o.pdf p).map Content.text
  | .xml => (o.xml p).map Content.text
  | .csvMeta => (o.csv p).map Content.table
  | .yamlMeta => (o.yamlMap p).map Content.mapping
  | .url => (urlReadFile (o.urlResolve p) (o.urlWrite p) (o.urlContent p)).outcome
  | .base => .error ()

/-- `Reader.make_text_data`: stem, full path, the reader's `ext` list,
parent-directory category and the content.  `replace_white_space` is
`False` for every reader the pipeline constructs (`get_reader` and
`UrlReader(path)` pass only the path), so the whitespace-collapsing
branch is never taken. -/
def makeTextData (rk : ReaderKind) (p : String) (content : Content) : TextData :=
  ⟨pathStem p, p, readerExt rk, pathCategory p, content⟩

/-- `UrlReader.make_text_data` overrides `ext` with the path's own suffix. -/
def makeTextDataUrl (p : String) (content : Content) : TextData :=
  ⟨pathStem p, p, [pathSuffix p], pathCategory p, content⟩

/-- `Reader.read()`: wraps `read_file` in the failure boundary.  Any
exception raised by `read_file` is converted to `(None, label)` where
the label is the file's display name `pathlib.Path(path).name`; on
success the `TextData` record is derived and the error slot is `""`. -/
def Reader.read (rk : ReaderKind) (o : Oracle) (p : String) : Option TextData × String :=
  match read_file rk o p with
  | .error _ => (none, pathName p)
  | .ok c => (some (makeTextData rk p c), "")

/-- `UrlReader(path).read()` as called by the pipeline in URL mode. -/
def urlRead (o : Oracle) (p : String) : Option TextData × String :=
  match (urlReadFile (o.urlResolve p) (o.urlWrite p) (o.urlContent p)).outcome with
  | .error _ => (none, pathName p)
  | .ok c => (some (makeTextDataUrl p c), "")

/-- Per-path reader dispatch of both pipeline loops:
`Reader.get_reader(path)` locally, `UrlReader(path)` in URL mode. -/
def readOne (isUrl : Bool) (o : Oracle) (p : String) : Option TextData × String :=
  if isUrl then urlRead o p else Reader.read (get_reader p) o p

/-! ### The pipeline (`ImportDocuments`)

The externally settable cancellation flag is modelled as the sequence of
values `self.cancelled` has at the successive checks the run performs
(one check per completed item, counted across both read phases);
`cancel n` is the flag's value at the `n`-th check. -/

structure RunCfg where
  startdir : String
  isUrl : Bool
  formats : List String
  progressOn : Bool

/-- `__init__`'s startdir normalization: both the URL branch and the
local `os.path.join(startdir, "")` branch append a trailing separator
when one is missing (POSIX). -/
def RunCfg.startdirNorm (cfg : RunCfg) : String :=
  if endsWithSlash cfg.startdir then cfg.startdir else cfg.startdir ++ "/"

/-- `["*.{}".format(fmt.lower()) for fmt in self.formats]`. -/
def docPatterns (cfg : RunCfg) : List String :=
  cfg.formats.map (fun fmt => "*." ++ toLowerStr fmt)

/-- `scan = self.scan_url if self._is_url else self.scan`, applied with
`include_patterns=patterns` and the default exclude `(".*",)`. -/
def scanDispatch (cfg : RunCfg) (fs : FSTree)
    (listing : Except Unit (List (List String))) (patterns : List String) : List String :=
  if cfg.isUrl then scanUrl cfg.startdirNorm listing patterns [hiddenGlob]
  else scanDir patterns [hiddenGlob] cfg.startdirNorm fs

/-- The document-reading loop of `_read_text_data`, one step per
candidate path.  At the top of an iteration, if exactly one item is in
the batch and a progress sink is attached, a report is emitted (carrying
`len(text_data)/n_paths`, the path about to be processed and the batch)
and the batch is reset.  Then the path is read; a success is appended to
`text_data` and a snapshot of `text_data` to the batch, a failure's
label to `errors`.  Finally the cancellation flag is checked: if set the
whole loop returns Python `None` (modelled `none`), discarding the
accumulated state. -/
def textLoop (isUrl progressOn : Bool) (o : Oracle) (cancel : Nat → Bool) (total : Nat) :
    List String → List TextData → List String → List (List TextData) → List Report → Nat →
    Option (List TextData × List String × List Report × Nat)
  | [], td, errs, _batch, reps, ck => some (td, errs, reps, ck)
  | p :: rest, td, errs, batch, reps, ck =>
    let doReport := batch.length = 1 && progressOn
    let batch' := if doReport then [] else batch
    let reps' := if doReport then reps ++ [⟨td.length, total, p, batch⟩] else reps
    match (readOne isUrl o p).1 with
    | some t =>
      if cancel ck then none
      else textLoop isUrl progressOn o cancel total rest
        (td ++ [t]) errs (batch' ++ [td ++ [t]]) reps' (ck + 1)
    | none =>
      if cancel ck then none
      else textLoop isUrl progressOn o cancel total rest
        td (errs ++ [(readOne isUrl o p).2]) batch' reps' (ck + 1)

/-- `_read_text_data`: scan for document paths, raise
`NoDocumentsException` (`.error ()`) if none were found, otherwise run
the loop.  `.ok none` is the Python `None` a cancelled loop returns. -/
def readTextData (cfg : RunCfg) (fs : FSTree) (listing : Except Unit (List (List String)))
    (o : Oracle) (cancel : Nat → Bool) :
    Except Unit (Option (List TextData × List String × List Report × Nat)) :=
  let paths := scanDispatch cfg fs listing (docPatterns cfg)
  if paths.length = 0 then .error ()
  else .ok (textLoop cfg.isUrl cfg.progressOn o cancel paths.length paths [] [] [] [] 0)

/-- `pd.DataFrame(content, index=[0])` for a yaml mapping: columns are
the mapping's keys in insertion order, with a single row of values. -/
def tableOfMapping (m : List (String × String)) : MetaTable :=
  ⟨m.map Prod.fst, [m.map (fun kv => some kv.2)]⟩

/-- `_read_meta_data`'s per-item content handling: a dict is wrapped into
a one-row DataFrame, any other content is appended as is. -/
def wrapChunk : Content → Content
  | .mapping m => .table (tableOfMapping m)
  | c => c

/-- `pd.concat` of the accumulated chunks.  All chunks the metadata scan
can produce are tables (csv output, or a wrapped yaml mapping), and
pandas' outer concatenation takes the union of the columns in order of
first appearance, filling absent cells with `NaN`; a non-table chunk
makes `pd.concat` raise (`.error`), which no reachable run hits. -/
def concatTables (ts : List MetaTable) : MetaTable :=
  let cols := (ts.map MetaTable.columns).flatten.dedup
  ⟨cols,
    (ts.map (fun t =>
      t.rows.map (fun r =>
        cols.map (fun c =>
          match t.columns.findIdx? (fun c' => c' = c) with
          | some i => (r.get? i).join
          | none => none)))).flatten⟩

def chunkTable? : Content → Option MetaTable
  | .table t => some t
  | _ => none

def concatChunks (chunks : List Content) : Except Unit MetaTable :=
  match chunks.mapM chunkTable? with
  | some ts => .ok (concatTables ts)
  | none => .error ()

/-- The metadata-reading loop of `_read_meta_data`: successes append
their (dict-wrapped) content, failures their label, and the cancellation
flag is checked after each item exactly as in the document loop. -/
def metaLoop (isUrl : Bool) (o : Oracle) (cancel : Nat → Bool) :
    List String → List Content → List String → Nat →
    Option (List Content × List String × Nat)
  | [], chunks, errs, ck => some (chunks, errs, ck)
  | p :: rest, chunks, errs, ck =>
    match (readOne isUrl o p).1 with
    | some t =>
      if cancel ck then none
      else metaLoop isUrl o cancel rest (chunks ++ [wrapChunk t.content]) errs (ck + 1)
    | none =>
      if cancel ck then none
      else metaLoop isUrl o cancel rest chunks (errs ++ [(readOne isUrl o p).2]) (ck + 1)

/-- `_read_meta_data`: scan with `["*.csv", "*.yaml", "*.yml"]`, read
each hit, then `pd.concat(meta_dfs) if meta_dfs else None`.  `.ok none`
is the Python `None` of a cancelled loop; the outer `.error` is a
`pd.concat` exception (unreachable for the contents this scan selects). -/
def metaPatterns : List String := ["*.csv", "*.yaml", "*.yml"]

def readMetaData (cfg : RunCfg) (fs : FSTree) (listing : Except Unit (List (List String)))
    (o : Oracle) (cancel : Nat → Bool) (ck0 : Nat) :
    Except Unit (Option (Option MetaTable × List String × Nat)) :=
  let paths := scanDispatch cfg fs listing metaPatterns
  match metaLoop cfg.isUrl o cancel paths [] [] ck0 with
  | none => .ok none
  | some (chunks, errs, ck) =>
    if chunks.isEmpty then .ok (some (none, errs, ck))
    else
      match concatChunks chunks with
      | .error _ => .error ()
      | .ok t => .ok (some (some t, errs, ck))

/-! ### Corpus assembly (`_create_corpus`) -/

/-- The assembled corpus: the `category` class column (present only when
more than one distinct category occurred), the NFC-normalized
`(name, path, content)` string metas, and the string columns appended by
the metadata join. -/
structure CorpusModel where
  hasCategoryColumn : Bool
  categoryValues : List String
  categoryData : List Nat
  rows : List (String × String × String)
  extraCols : List (String × List (Option String))
deriving DecidableEq

/-- The string `normalize('NFC', ...)` receives: document contents are
plain text; the other `Content` constructors never reach corpus assembly
(the document include patterns dispatch only to the text-producing
readers — `normalize` would raise `TypeError` on them). -/
def contentText : Content → String
  | .text s => s
  | .table _ => ""
  | .mapping _ => ""

/-- `_create_corpus`: distinct categories via `list(set(...))` (the model
fixes first-occurrence order; only membership and the count are ever
used), NFC normalization of name/path/content (`nfc` is the Unicode
normalization function, kept abstract), `category_var.to_val` as the
index into the distinct values, and the category column only when more
than one distinct category exists.  With no accumulated documents the
corpus stays `None`. -/
def createCorpus (nfc : String → String) (textData : List TextData) : Option CorpusModel :=
  let textCategories := (textData.map (fun t => t.category)).dedup
  let values := textCategories.dedup
  let rows := textData.map (fun td =>
    (nfc td.name, nfc td.path, nfc (contentText td.content)))
  let catData := textData.map (fun td => values.indexOf td.category)
  if rows.length ≠ 0 then
    some
      { hasCategoryColumn := textCategories.length > 1
        categoryValues := if textCategories.length > 1 then values else []
        categoryData := if textCategories.length > 1 then catData else []
        rows := rows
        extraCols := [] }
  else none

/-- The column names of the corpus domain: the optional `category` class
variable, the three string metas, and the joined metadata columns. -/
def corpusColNames (c : CorpusModel) : List String :=
  (if c.hasCategoryColumn then ["category"] else []) ++
    ["name", "path", "content"] ++ c.extraCols.map Prod.fst

/-! ### The metadata join (`_add_metadata`) -/

def META_DATA_FILE_KEY : String := "Text file"

/-- Modelled from the spec: `get_unique_names` of the external container
library is "deterministic collision-avoidance naming" — it returns a name
that is unique against the existing corpus column names.  Any
deterministic such scheme fits the boundary; here a colliding proposal
is padded beyond the longest existing name, which is provably fresh. -/
def maxNameLen (names : List String) : Nat :=
  names.foldr (fun s m => max s.length m) 0

def get_unique_names (existing : List String) (proposed : String) : String :=
  if proposed ∈ existing then
    proposed ++ String.mk (List.replicate (maxNameLen existing + 1 - proposed.length) '(')
  else proposed

/-- The lookup key of one metadata row:
`self.startdir + self._meta_data[self.META_DATA_FILE_KEY]`.  A missing
(`NaN`) file-reference cell yields a key that matches no path, like
pandas' `NaN` index entries. -/
def metaKey (startdir : String) (meta : MetaTable) (row : List (Option String)) :
    Option String :=
  match meta.columns.findIdx? (fun c => c = META_DATA_FILE_KEY) with
  | some i => ((row.get? i).join).map (fun v => startdir ++ v)
  | none => none

/-- `df[~df.index.duplicated(keep='first')]`: keep each keyed row whose
key has not occurred before. -/
def dedupKeysFirst (seen : List (Option String)) :
    List (Option String × List (Option String)) →
    List (Option String × List (Option String))
  | [] => []
  | kr :: rest =>
    if kr.1 ∈ seen then dedupKeysFirst seen rest
    else kr :: dedupKeysFirst (kr.1 :: seen) rest

/-- `df = self._meta_data.set_index(self.startdir + ...)`: each metadata
row paired with its lookup key (`set_index` with a Series keeps every
column, including the file-reference column itself). -/
def metaKeyed (startdir : String) (meta : MetaTable) :
    List (Option String × List (Option String)) :=
  meta.rows.map (fun r => (metaKey startdir meta r, r))

/-- `path_column = corpus.get_column_view("path")[0]`. -/
def corpusPaths (corpus : CorpusModel) : List String :=
  corpus.rows.map (fun row => row.2.1)

/-- `if len(df.index.drop_duplicates()) != len(df.index): df =
df[~df.index.duplicated(keep='first')]`. -/
def metaKeyedDedup (startdir : String) (meta : MetaTable) :
    List (Option String × List (Option String)) :=
  if ((metaKeyed startdir meta).map Prod.fst).Nodup then metaKeyed startdir meta
  else dedupKeysFirst [] (metaKeyed startdir meta)

/-- `filtered = df.reindex(path_column)`: for each corpus path, the row
whose (now unique) key equals it, or a missing row. -/
def metaFiltered (startdir : String) (corpus : CorpusModel) (meta : MetaTable) :
    List (Option (List (Option String))) :=
  (corpusPaths corpus).map
    (fun p => ((metaKeyedDedup startdir meta).find? (fun kr => kr.1 == some p)).map Prod.snd)

/-- The join body of `_add_metadata` once the guards passed:
`for column in filtered.columns: corpus = corpus.add_column(...)` —
every metadata column is appended as a fresh-named string column whose
values come from the reindexed table (`none` for corpus paths with no
matching key). -/
def joinMeta (startdir : String) (corpus : CorpusModel) (meta : MetaTable) : CorpusModel :=
  meta.columns.enum.foldl
    (fun c jc =>
      { c with
        extraCols := c.extraCols ++
          [(get_unique_names (corpusColNames c) jc.2,
            (metaFiltered startdir corpus meta).map
              (fun row? => row?.bind (fun r => (r.get? jc.1).join)))] })
    corpus

/-- `_add_metadata(corpus)`.  The source first evaluates
`"path" not in corpus.domain`, which raises `AttributeError` when the
corpus is `None` (`.error ()` here); otherwise a missing metadata table,
a missing file-reference column, or a missing `path` column returns the
corpus unchanged, and the join runs in the remaining case. -/
def addMetadata (startdir : String) (corpus? : Option CorpusModel)
    (meta? : Option MetaTable) : Except Unit (Option CorpusModel) :=
  match corpus? with
  | none => .error ()
  | some corpus =>
    if "path" ∉ corpusColNames corpus then .ok (some corpus)
    else
      match meta? with
      | none => .ok (some corpus)
      | some meta =>
        if META_DATA_FILE_KEY ∉ meta.columns then .ok (some corpus)
        else .ok (some (joinMeta startdir corpus meta))

/-! ### `run` -/

/-- The exceptional terminations `run()` can have: the deliberate
`NoDocumentsException`; the `TypeError` of unpacking the `None` a
cancelled phase returns; the `AttributeError` of `_add_metadata`
dereferencing a `None` corpus; and a `pd.concat` `TypeError`
(unreachable). -/
inductive RunExc where
  | noDocuments | unpackTypeError | attributeError | concatTypeError
deriving DecidableEq

/-- `ImportDocuments.run()`: the two read phases, corpus assembly, the
metadata join, and the concatenated error lists. -/
def runModel (cfg : RunCfg) (fs : FSTree) (listing : Except Unit (List (List String)))
    (o : Oracle) (cancel : Nat → Bool) (nfc : String → String) :
    Except RunExc (Option CorpusModel × List String) :=
  match readTextData cfg fs listing o cancel with
  | .error _ => .error .noDocuments
  | .ok none => .error .unpackTypeError
  | .ok (some (td, errsText, _reports, ck)) =>
    match readMetaData cfg fs listing o cancel ck with
    | .error _ => .error .concatTypeError
    | .ok none => .error .unpackTypeError
    | .ok (some (meta?, errsMeta, _)) =>
      match addMetadata cfg.startdirNorm (createCorpus nfc td) meta? with
      | .error _ => .error .attributeError
      | .ok corpus? => .ok (corpus?, errsText ++ errsMeta)

/-! ### Loop-free characterizations used by the progress-report claim

These three definitions follow the words of the (amended) progress
claim rather than the loop; the theorem below proves the loop equal to
them. -/

/-- The records of the successful reads, in candidate order. -/
def expSuccesses (isUrl : Bool) (o : Oracle) : List String → List TextData
  | [] => []
  | p :: rest =>
    match (readOne isUrl o p).1 with
    | some t => t :: expSuccesses isUrl o rest
    | none => expSuccesses isUrl o rest

/-- The error labels of the failed reads, in candidate order. -/
def expFailures (isUrl : Bool) (o : Oracle) : List String → List String
  | [] => []
  | p :: rest =>
    match (readOne isUrl o p).1 with
    | some _ => expFailures isUrl o rest
    | none => (readOne isUrl o p).2 :: expFailures isUrl o rest

/-- The progress notifications per the amended claim: one is emitted at
the start of processing a path whenever the previous path's read
succeeded (`pending`), carrying the number of successes so far over the
total candidate count, the path about to be processed, and the
one-snapshot batch; no notification follows the final read. -/
def expReports (isUrl : Bool) (o : Oracle) (total : Nat) :
    List String → List TextData → Bool → List Report
  | [], _, _ => []
  | p :: rest, td, pending =>
    let pre : List Report := if pending then [⟨td.length, total, p, [td]⟩] else []
    match (readOne isUrl o p).1 with
    | some t => pre ++ expReports isUrl o total rest (td ++ [t]) true
    | none => pre ++ expReports isUrl o total rest td false

/-- Whether an external call succeeded. -/
def exceptOk {α : Type} : Except Unit α → Bool
  | .ok _ => true
  | .error _ => false

/-! ### Concrete fixtures used by witnesses and counterexamples -/

/-- An oracle on which every external call raises. -/
def oracleAllFail : Oracle :=
  ⟨fun _ => .error (), fun _ => .error (), fun _ => .error (), fun _ => .error (),
   fun _ => .error (), fun _ => .error (), fun _ => .error (), fun _ => .error (),
   fun _ => .error (), fun _ => .error ()⟩

/-- An oracle whose text reads succeed with content `"hello"`. -/
def oracleTxtHello : Oracle :=
  { oracleAllFail with txt := fun _ => .ok "hello" }

def cfgLocal : RunCfg := ⟨"root", false, ["docx", "odt", "txt", "pdf", "xml"], false⟩

def cfgLocalProgress : RunCfg := { cfgLocal with progressOn := true }

def fsEmptyRoot : FSTree := .dir "root" [] .nil

def fsOneTxt : FSTree := .dir "root" ["a.txt"] .nil

def fsTwoTxt : FSTree := .dir "root" ["a.txt", "b.txt"] .nil

/-- A tree with a hidden subdirectory holding a matching file, plus a
visible subdirectory. -/
def fsWithHidden : FSTree :=
  .dir "root" ["a.txt"]
    (.cons (.dir ".git" ["secret.txt"] .nil)
      (.cons (.dir "sub" ["d.txt"] .nil) .nil))

/-- A two-row corpus fixture for the metadata-join witness. -/
def corpusTwoRows : CorpusModel :=
  ⟨false, [], [], [("a", "root/a.txt", "x"), ("b", "root/b.txt", "y")], []⟩

/-- Metadata with a duplicated key `a.txt` for the join witness. -/
def metaDupKeys : MetaTable :=
  ⟨["Text file", "author"],
   [[some "a.txt", some "A1"], [some "a.txt", some "A2"], [some "b.txt", some "B"]]⟩

/-- Two documents with distinct categories, for the category-column
witness. -/
def tdTwoCats : List TextData :=
  [⟨"a", "root/catA/a.txt", [".txt"], "catA", .text "x"⟩,
   ⟨"b", "root/catB/b.txt", [".txt"], "catB", .text "y"⟩]

/-- The corpus `_create_corpus` assembles from `tdTwoCats`. -/
def corpusTwoCats : CorpusModel :=
  ⟨true, ["catA", "catB"], [0, 1],
   [("a", "root/catA/a.txt", "x"), ("b", "root/catB/b.txt", "y")], []⟩

/-! ## Theorems -/

theorem globMatchF_star_true (fuel : Nat) (s : List Char) (h : s.length + 2 ≤ fuel) :
    globMatchF fuel ['*'] s = true := by
  induction fuel generalizing s with
  | zero => omega
  | succ f ih =>
    cases s with
    | nil =>
      have hf : 1 ≤ f := by omega
      cases f with
      | zero => omega
      | succ f' => simp [globMatchF]
    | cons c t =>
      rw [globMatchF]
      have : globMatchF f ['*'] t = true := ih t (by simp at h ⊢; omega)
      simp [this]

/-- `globMatch ".*"` holds exactly for names that start with a dot. -/
theorem globMatch_hidden (s : List Char) :
    globMatch hiddenGlob.data s = true ↔ ∃ t, s = '.' :: t := by
  have hdata : hiddenGlob.data = ['.', '*'] := rfl
  rw [hdata]
  constructor
  · intro h
    cases s with
    | nil => simp [globMatch, globMatchF] at h
    | cons c t =>
      refine ⟨t, ?_⟩
      rw [globMatch, globMatchF] at h
      case x_3 => decide
      case x_4 => decide
      simp only [Bool.and_eq_true, decide_eq_true_eq] at h
      rw [h.1]
  · rintro ⟨t, rfl⟩
    rw [globMatch, globMatchF]
    case x_3 => decide
    case x_4 => decide
    have : globMatchF (['.', '*'].length + ('.' :: t).length + 1 - 1) ['*'] t = true := by
      apply globMatchF_star_true
      simp
      omega
    simp at this
    simp [this]


/-- Helper: a suffix registered with no reader sends `get_reader` to the
base fallback. -/
theorem get_reader_eq_base (p : String)
    (h : ∀ r ∈ registry, pathSuffix p ∉ readerExt r) : get_reader p = .base := by
  unfold get_reader
  have hfind : registry.find? (fun r => pathSuffix p ∈ readerExt r) = none := by
    rw [List.find?_eq_none]
    intro r hr
    simp [h r hr]
  rw [hfind]

/-- C9 (counterexample): two exit paths the claim covers leave the
temporary file behind — a fetch whose extraction of the materialized
file fails (parse failure), and a fetch whose `f.write(response.read())`
fails after `NamedTemporaryFile` already created the file (I/O failure).
In both, the file was created and the fetch returns without deleting
it, contradicting deletion on all exit paths. -/
theorem c9_counterexample :
    (urlReadFile (.ok ()) (.ok ()) (.error ())).tempFileCreated = true ∧
    (urlReadFile (.ok ()) (.ok ()) (.error ())).tempFileDeleted = false ∧
    (urlReadFile (.ok ()) (.error ()) (.ok (.text "x"))).tempFileCreated = true ∧
    (urlReadFile (.ok ()) (.error ()) (.ok (.text "x"))).tempFileDeleted = false :=
  ⟨rfl, rfl, rfl, rfl⟩

/-- C9 (amended): the temporary file of `UrlReader.read_file` exists
exactly when the pre-creation stage (redirect resolution, `urlopen`,
header handling, `NamedTemporaryFile` creation) succeeded, and it is
deleted before returning exactly when every stage succeeded — the
pre-creation stage, the write of the response bytes into the already
created file, and the extraction.  On a failure in either post-creation
stage (an I/O failure in `f.write(response.read())`, or an
extraction/parse failure) the exception propagates and the created file
is left behind. -/
theorem c9_temp_file_lifecycle (resolve writeTemp : Except Unit Unit)
    (fetch : Except Unit Content) :
    (urlReadFile resolve writeTemp fetch).tempFileCreated = exceptOk resolve ∧
    (urlReadFile resolve writeTemp fetch).tempFileDeleted =
      (exceptOk resolve && (exceptOk writeTemp && exceptOk fetch)) ∧
    (urlReadFile resolve writeTemp fetch).outcome =
      (if exceptOk resolve && exceptOk writeTemp then fetch else .error ()) := by
  cases resolve <;> cases writeTemp <;> cases fetch <;> simp [urlReadFile, exceptOk]

/-- C4: a path whose final suffix belongs to no registered reader's
extension list is dispatched to the fallback base reader, whose `read()`
always yields `(None, display name)`; and for every reader, an exception
inside `read_file` is converted by `read()` into `(None, display name)`
rather than propagated. -/
theorem c4_fallback_reader_and_read_boundary :
    (∀ p, (∀ r ∈ registry, pathSuffix p ∉ readerExt r) →
      get_reader p = ReaderKind.base ∧
      ∀ o, Reader.read ReaderKind.base o p = (none, pathName p)) ∧
    (∀ rk o p, read_file rk o p = .error () →
      Reader.read rk o p = (none, pathName p)) := by
  refine ⟨fun p h => ⟨get_reader_eq_base p h, fun o => rfl⟩, fun rk o p h => ?_⟩
  unfold Reader.read
  rw [h]

/-- C4 witness: `".foo"` is registered with no reader; the fallback read
fails with the display name as label, and a txt read whose extraction
raises is converted to `(None, display name)`. -/
theorem c4_witness :
    get_reader "root/a.foo" = ReaderKind.base ∧
    Reader.read ReaderKind.base oracleAllFail "root/a.foo" = (none, "a.foo") ∧
    Reader.read ReaderKind.txt oracleAllFail "root/b.txt" = (none, "b.txt") :=
  ⟨(c4_fallback_reader_and_read_boundary.1 "root/a.foo" (by decide)).1,
   (c4_fallback_reader_and_read_boundary.1 "root/a.foo" (by decide)).2 oracleAllFail,
   c4_fallback_reader_and_read_boundary.2 ReaderKind.txt oracleAllFail "root/b.txt" rfl⟩

/-- C10: the metadata scan includes `*.yml`, but no registered reader
declares the `".yml"` extension (the yaml reader declares only
`".yaml"`), so a local `.yml` file is dispatched to the fallback reader
and its read contributes exactly one entry to the metadata error list
and no chunk to the metadata table. -/
theorem c10_yml_goes_to_fallback :
    (∀ r ∈ registry, ".yml" ∉ readerExt r) ∧
    "*.yml" ∈ metaPatterns ∧
    readerExt ReaderKind.yamlMeta = [".yaml"] ∧
    (∀ p, pathSuffix p = ".yml" → get_reader p = ReaderKind.base) ∧
    (∀ p o cancel chunks errs ck, pathSuffix p = ".yml" → cancel ck = false →
      metaLoop false o cancel [p] chunks errs ck =
        some (chunks, errs ++ [pathName p], ck + 1)) := by
  refine ⟨by decide, by decide, rfl, fun p h => ?_, fun p o cancel chunks errs ck h hc => ?_⟩
  · apply get_reader_eq_base
    intro r hr
    rw [h]
    revert r hr
    decide
  · have hbase : get_reader p = ReaderKind.base := by
      apply get_reader_eq_base
      intro r hr
      rw [h]
      revert r hr
      decide
    rw [metaLoop]
    simp [readOne, hbase, Reader.read, read_file, hc, metaLoop]

/-- C10 witness at a concrete `.yml` path. -/
theorem c10_witness :
    get_reader "root/meta.yml" = ReaderKind.base ∧
    metaLoop false oracleAllFail (fun _ => false) ["root/meta.yml"] [] [] 0 =
      some ([], [] ++ ["meta.yml"], 1) :=
  ⟨c10_yml_goes_to_fallback.2.2.2.1 "root/meta.yml" rfl,
   c10_yml_goes_to_fallback.2.2.2.2 "root/meta.yml" oracleAllFail (fun _ => false)
     [] [] 0 rfl rfl⟩

/-- C1: when the document scan yields zero candidate paths, `run()`
terminates with the `NoDocumentsException` signal before any file is
read (the conclusion holds for every oracle, so no read outcome can
influence it) and produces no corpus. -/
theorem c1_zero_scan_fails_fast (cfg : RunCfg) (fs : FSTree)
    (listing : Except Unit (List (List String))) (o : Oracle)
    (cancel : Nat → Bool) (nfc : String → String)
    (h : scanDispatch cfg fs listing (docPatterns cfg) = []) :
    runModel cfg fs listing o cancel nfc = .error .noDocuments := by
  unfold runModel readTextData
  simp [h]

/-- C1 witness: an empty scan root. -/
theorem c1_witness :
    scanDispatch cfgLocal fsEmptyRoot (.error ()) (docPatterns cfgLocal) = [] ∧
    runModel cfgLocal fsEmptyRoot (.error ()) oracleAllFail (fun _ => false) id =
      .error .noDocuments :=
  ⟨rfl, c1_zero_scan_fails_fast cfgLocal fsEmptyRoot (.error ()) oracleAllFail
    (fun _ => false) id rfl⟩

/-- C3: a run that observes the cancellation flag after a completed
document read (the text phase returns `None`) or after a completed
metadata read (the metadata phase returns `None`) terminates early —
`run()` aborts unpacking that `None` — and yields neither a corpus nor
an error list. -/
theorem c3_cancelled_run_yields_nothing (cfg : RunCfg) (fs : FSTree)
    (listing : Except Unit (List (List String))) (o : Oracle)
    (cancel : Nat → Bool) (nfc : String → String)
    (h : readTextData cfg fs listing o cancel = .ok none ∨
      ∃ td errs reps ck,
        readTextData cfg fs listing o cancel = .ok (some (td, errs, reps, ck)) ∧
        readMetaData cfg fs listing o cancel ck = .ok none) :
    runModel cfg fs listing o cancel nfc = .error .unpackTypeError := by
  unfold runModel
  rcases h with h | ⟨td, errs, reps, ck, h1, h2⟩
  · rw [h]
  · rw [h1]
    dsimp only
    rw [h2]

/-- C3 witness: the flag is set during the document phase. -/
theorem c3_witness :
    readTextData cfgLocal fsOneTxt (.error ()) oracleTxtHello (fun _ => true) =
      .ok none ∧
    runModel cfgLocal fsOneTxt (.error ()) oracleTxtHello (fun _ => true) id =
      .error .unpackTypeError :=
  ⟨rfl, c3_cancelled_run_yields_nothing cfgLocal fsOneTxt (.error ()) oracleTxtHello
    (fun _ => true) id (Or.inl rfl)⟩

/-- C2 (code evaluated at the failing input): the scan finds one
candidate (`root/a.txt`), its read fails, so the accumulated document
list is empty and the text-error list is `["a.txt"]`; the claim (and
spec) say `run()` then returns `(None, ["a.txt"])`, but the code aborts
with `AttributeError` because `_add_metadata` evaluates
`corpus.domain` on the `None` corpus `_create_corpus` produced. -/
theorem c2_empty_document_list_crashes :
    readTextData cfgLocal fsOneTxt (.error ()) oracleAllFail (fun _ => false) =
      .ok (some ([], ["a.txt"], [], 1)) ∧
    createCorpus id ([] : List TextData) = none ∧
    addMetadata cfgLocal.startdirNorm none none = .error () ∧
    runModel cfgLocal fsOneTxt (.error ()) oracleAllFail (fun _ => false) id =
      .error .attributeError :=
  ⟨rfl, rfl, rfl, rfl⟩

/-- C5: the assembled corpus carries the categorical `category` column
exactly when more than one distinct category value occurs in the batch;
with one distinct category the column is omitted, and with zero records
no corpus is assembled at all. -/
theorem c5_category_column_iff (nfc : String → String) (td : List TextData) :
    (∀ c, createCorpus nfc td = some c →
      (c.hasCategoryColumn = true ↔
        1 < (td.map (fun t => t.category)).toFinset.card)) ∧
    (createCorpus nfc td = none ↔ td = []) := by
  have hcard : (td.map (fun t => t.category)).toFinset.card =
      (td.map (fun t => t.category)).dedup.length := List.card_toFinset _
  constructor
  · intro c hc
    cases td with
    | nil => simp [createCorpus] at hc
    | cons t ts =>
      simp only [createCorpus, List.length_map, List.length_cons] at hc
      simp only [ne_eq, Nat.succ_ne_zero, not_false_iff, if_true] at hc
      rw [Option.some_inj] at hc
      rw [← hc, hcard]
      simp
  · cases td with
    | nil => simp [createCorpus]
    | cons t ts =>
      simp only [createCorpus, List.length_map, List.length_cons]
      simp

/-- C5 witness: two distinct categories produce the category column. -/
theorem c5_witness :
    corpusTwoCats.hasCategoryColumn = true ↔
      1 < (tdTwoCats.map (fun t => t.category)).toFinset.card :=
  (c5_category_column_iff id tdTwoCats).1 corpusTwoCats rfl

/-- The scanner-decomposition property: every emitted path splits into
the walk root, a chain of traversed subdirectory names none of which
matches the hidden glob, and a filename that passed the include/exclude
filters. -/
def ScanDecomp (inc exc : List String) (dirpath p : String) : Prop :=
  ∃ (dirs : List String) (fname : String),
    (∀ c ∈ dirs, globMatch hiddenGlob.data (String.data c) = false) ∧
    matches_any fname inc = true ∧ matches_any fname exc = false ∧
    p = joinP (dirs.foldl joinP dirpath) fname

mutual

theorem scanDir_mem_decomp (inc exc : List String) (dirpath : String) (t : FSTree)
    (p : String) (hp : p ∈ scanDir inc exc dirpath t) :
    ScanDecomp inc exc dirpath p := by
  cases t with
  | dir n files subdirs =>
    rw [scanDir] at hp
    rcases List.mem_append.mp hp with hfile | hsub
    · rcases List.mem_map.mp hfile with ⟨f, hf, rfl⟩
      have hf' := (List.mem_filter.mp hf).2
      simp only [Bool.and_eq_true, Bool.not_eq_true'] at hf'
      exact ⟨[], f, by simp, hf'.1, hf'.2, by simp [List.foldl]⟩
    · exact scanSubdirs_mem_decomp inc exc dirpath subdirs p hsub

theorem scanSubdirs_mem_decomp (inc exc : List String) (dirpath : String)
    (f : FSForest) (p : String) (hp : p ∈ scanSubdirs inc exc dirpath f) :
    ScanDecomp inc exc dirpath p := by
  cases f with
  | nil =>
    rw [scanSubdirs] at hp
    simp at hp
  | cons d ds =>
    rw [scanSubdirs] at hp
    rcases List.mem_append.mp hp with hd | hds
    · by_cases hhid : globMatch hiddenGlob.data d.dirName.data = true
      · rw [if_pos hhid] at hd
        simp at hd
      · rw [if_neg hhid] at hd
        rcases scanDir_mem_decomp inc exc (joinP dirpath d.dirName) d p hd with
          ⟨dirs, fname, h1, h2, h3, h4⟩
        refine ⟨d.dirName :: dirs, fname, ?_, h2, h3, ?_⟩
        · intro c hc
          rcases List.mem_cons.mp hc with rfl | hc'
          · exact Bool.not_eq_true _ ▸ hhid
          · exact h1 c hc'
        · simpa [List.foldl] using h4
    · exact scanSubdirs_mem_decomp inc exc dirpath ds p hds

end

/-- C7: a path emitted by the local scan never lies under a hidden
subdirectory — it decomposes into the scan root, a chain of traversed
subdirectory names, none matching the hidden glob `".*"`, and a
filename that matched an include pattern and no exclude pattern;
this holds for every include/exclude pattern list supplied. -/
theorem c7_hidden_dirs_never_descended (inc exc : List String) (dirpath : String)
    (t : FSTree) (p : String) (hp : p ∈ scanDir inc exc dirpath t) :
    ∃ (dirs : List String) (fname : String),
      (∀ c ∈ dirs, globMatch hiddenGlob.data (String.data c) = false) ∧
      matches_any fname inc = true ∧ matches_any fname exc = false ∧
      p = joinP (dirs.foldl joinP dirpath) fname :=
  scanDir_mem_decomp inc exc dirpath t p hp

/-- C7 witness: scanning a tree with a hidden `.git` subdirectory (which
contains a file the include pattern would otherwise accept) emits
`root/sub/d.txt`, whose decomposition traverses only the non-hidden
`sub`. -/
theorem c7_witness :
    "root/sub/d.txt" ∈ scanDir ["*.txt"] [hiddenGlob] "root/" fsWithHidden ∧
    (∃ (dirs : List String) (fname : String),
      (∀ c ∈ dirs, globMatch hiddenGlob.data (String.data c) = false) ∧
      matches_any fname ["*.txt"] = true ∧ matches_any fname [hiddenGlob] = false ∧
      "root/sub/d.txt" = joinP (dirs.foldl joinP "root/") fname) :=
  ⟨by decide,
   c7_hidden_dirs_never_descended ["*.txt"] [hiddenGlob] "root/" fsWithHidden
     "root/sub/d.txt" (by decide)⟩

/-- Helper: with a progress sink attached and the cancellation flag
never set, the document loop computes the success list, the failure
labels, and exactly the report schedule of `expReports`.  The batch
argument is `[td]` when the previous read succeeded (`pending`) and
empty otherwise — the only two shapes the loop ever produces. -/
theorem textLoop_no_cancel (isUrl : Bool) (o : Oracle) (total : Nat)
    (ps : List String) :
    ∀ (td : List TextData) (errs : List String) (reps : List Report) (ck : Nat)
      (pending : Bool),
      textLoop isUrl true o (fun _ => false) total ps td errs
          (if pending then [td] else []) reps ck =
        some (td ++ expSuccesses isUrl o ps, errs ++ expFailures isUrl o ps,
          reps ++ expReports isUrl o total ps td pending, ck + ps.length) := by
  induction ps with
  | nil =>
    intro td errs reps ck pending
    simp [textLoop, expSuccesses, expFailures, expReports]
  | cons p rest ih =>
    intro td errs reps ck pending
    cases pending with
    | true =>
      cases hr : (readOne isUrl o p).1 with
      | some t =>
        have h1 := ih (td ++ [t]) errs (reps ++ [⟨td.length, total, p, [td]⟩]) (ck + 1) true
        simp at h1
        simp [textLoop, hr, expSuccesses, expFailures, expReports, h1,
          List.append_assoc, Nat.add_assoc, Nat.add_comm 1 rest.length]
      | none =>
        have h1 := ih td (errs ++ [(readOne isUrl o p).2])
          (reps ++ [⟨td.length, total, p, [td]⟩]) (ck + 1) false
        simp at h1
        simp [textLoop, hr, expSuccesses, expFailures, expReports, h1,
          List.append_assoc, Nat.add_assoc, Nat.add_comm 1 rest.length]
    | false =>
      cases hr : (readOne isUrl o p).1 with
      | some t =>
        have h1 := ih (td ++ [t]) errs reps (ck + 1) true
        simp at h1
        simp [textLoop, hr, expSuccesses, expFailures, expReports, h1,
          List.append_assoc, Nat.add_assoc, Nat.add_comm 1 rest.length]
      | none =>
        have h1 := ih td (errs ++ [(readOne isUrl o p).2]) reps (ck + 1) false
        simp at h1
        simp [textLoop, hr, expSuccesses, expFailures, expReports, h1,
          List.append_assoc, Nat.add_assoc, Nat.add_comm 1 rest.length]

/-- C8 (counterexample): a run over one candidate path whose read
succeeds, with a progress sink attached and no cancellation.  The read
completes and exactly one item has accumulated since the (nonexistent)
previous report, so the claim demands a progress notification; the code
emits none (the report component of the result is `[]` even though one
document was successfully accumulated). -/
theorem c8_counterexample :
    readTextData cfgLocalProgress fsOneTxt (.error ()) oracleTxtHello (fun _ => false) =
      .ok (some ([⟨"a", "root/a.txt", [".txt"], "root", .text "hello"⟩], [], [], 1)) :=
  rfl

/-- C8 (amended): with a sink attached and no cancellation, a progress
notification is emitted at the start of processing each path whose
predecessor's read succeeded — so none follows the final read — and it
carries the number of successfully read documents so far (not of all
completed reads) divided by the total candidate count, the path about to
be processed (not the last path processed), and the one-snapshot batch,
after which the batch is reset; `expReports` states exactly this
schedule. -/
theorem c8_amended_report_schedule (cfg : RunCfg) (fs : FSTree)
    (listing : Except Unit (List (List String))) (o : Oracle)
    (hprog : cfg.progressOn = true)
    (hpaths : scanDispatch cfg fs listing (docPatterns cfg) ≠ []) :
    readTextData cfg fs listing o (fun _ => false) =
      .ok (some
        (expSuccesses cfg.isUrl o (scanDispatch cfg fs listing (docPatterns cfg)),
         expFailures cfg.isUrl o (scanDispatch cfg fs listing (docPatterns cfg)),
         expReports cfg.isUrl o (scanDispatch cfg fs listing (docPatterns cfg)).length
           (scanDispatch cfg fs listing (docPatterns cfg)) [] false,
         (scanDispatch cfg fs listing (docPatterns cfg)).length)) := by
  unfold readTextData
  rw [hprog]
  rw [if_neg (by simpa using hpaths)]
  have h := textLoop_no_cancel cfg.isUrl o
    (scanDispatch cfg fs listing (docPatterns cfg)).length
    (scanDispatch cfg fs listing (docPatterns cfg)) [] [] [] 0 false
  simpa using h

/-- C8 witness: the amended schedule at a concrete two-file run — one
report, emitted when processing of the second path begins. -/
theorem c8_witness :
    readTextData cfgLocalProgress fsTwoTxt (.error ()) oracleTxtHello (fun _ => false) =
      .ok (some
        (expSuccesses cfgLocalProgress.isUrl oracleTxtHello
          (scanDispatch cfgLocalProgress fsTwoTxt (.error ())
            (docPatterns cfgLocalProgress)),
         expFailures cfgLocalProgress.isUrl oracleTxtHello
          (scanDispatch cfgLocalProgress fsTwoTxt (.error ())
            (docPatterns cfgLocalProgress)),
         expReports cfgLocalProgress.isUrl oracleTxtHello
          (scanDispatch cfgLocalProgress fsTwoTxt (.error ())
            (docPatterns cfgLocalProgress)).length
          (scanDispatch cfgLocalProgress fsTwoTxt (.error ())
            (docPatterns cfgLocalProgress)) [] false,
         (scanDispatch cfgLocalProgress fsTwoTxt (.error ())
           (docPatterns cfgLocalProgress)).length)) ∧
    expReports cfgLocalProgress.isUrl oracleTxtHello 2
        ["root/a.txt", "root/b.txt"] [] false =
      [⟨1, 2, "root/b.txt",
        [[⟨"a", "root/a.txt", [".txt"], "root", .text "hello"⟩]]⟩] :=
  ⟨c8_amended_report_schedule cfgLocalProgress fsTwoTxt (.error ()) oracleTxtHello
    rfl (by decide), rfl⟩

/-- Helper: every member of a name list is at most `maxNameLen` long. -/
theorem length_le_maxNameLen {s : String} {names : List String} (h : s ∈ names) :
    s.length ≤ maxNameLen names := by
  induction names with
  | nil => simp at h
  | cons a l ih =>
    rcases List.mem_cons.mp h with rfl | h'
    · exact le_max_left _ _
    · exact le_trans (ih h') (le_max_right _ _)

/-- Helper: the name `get_unique_names` returns is never among the
existing names. -/
theorem get_unique_names_not_mem (existing : List String) (proposed : String) :
    get_unique_names existing proposed ∉ existing := by
  unfold get_unique_names
  by_cases h : proposed ∈ existing
  · rw [if_pos h]
    intro hmem
    have hle := length_le_maxNameLen hmem
    have hple := length_le_maxNameLen h
    rw [String.length_append] at hle
    have hpad : (String.mk (List.replicate
        (maxNameLen existing + 1 - proposed.length) '(')).length =
        maxNameLen existing + 1 - proposed.length := by
      rw [show (String.mk (List.replicate
          (maxNameLen existing + 1 - proposed.length) '(')).length =
          (List.replicate (maxNameLen existing + 1 - proposed.length) '(').length
        from rfl]
      exact List.length_replicate _ _
    omega
  · rw [if_neg h]
    exact h

/-- Helper: looking a key up in the first-occurrence deduplication gives
the same result as looking it up in the original keyed list (provided
the key is not among the already-seen ones). -/
theorem find?_dedupKeysFirst (k : Option String)
    (l : List (Option String × List (Option String))) :
    ∀ seen : List (Option String), k ∉ seen →
      (dedupKeysFirst seen l).find? (fun kr => kr.1 == k) =
        l.find? (fun kr => kr.1 == k) := by
  induction l with
  | nil => intro seen _; simp [dedupKeysFirst]
  | cons kr rest ih =>
    intro seen hk
    by_cases hmem : kr.1 ∈ seen
    · rw [dedupKeysFirst, if_pos hmem, ih seen hk]
      have hne : (kr.1 == k) = false := by
        rw [beq_eq_false_iff_ne]
        intro he
        exact hk (he ▸ hmem)
      simp only [List.find?, hne]
    · rw [dedupKeysFirst, if_neg hmem]
      rcases Bool.eq_false_or_eq_true (kr.1 == k) with heq | heq
      · simp only [List.find?, heq]
      · simp only [List.find?, heq]
        apply ih
        intro hin
        rcases List.mem_cons.mp hin with he | h'
        · rw [he, beq_self_eq_true] at heq
          exact absurd heq (by simp)
        · exact hk h'

/-- Helper: appending one metadata column extends the corpus column
names by the freshly chosen name. -/
theorem corpusColNames_append (c : CorpusModel) (nm : String)
    (v : List (Option String)) :
    corpusColNames { c with extraCols := c.extraCols ++ [(nm, v)] } =
      corpusColNames c ++ [nm] := by
  simp [corpusColNames, List.append_assoc]

/-- Helper: the column-appending fold of the metadata join preserves the
rows and the category column, appends exactly the supplied value lists,
and keeps the column names duplicate-free. -/
theorem foldAppend_spec (vals : Nat → List (Option String)) :
    ∀ (cols : List (Nat × String)) (c : CorpusModel),
      ((cols.foldl (fun c jc =>
          { c with extraCols := c.extraCols ++
              [(get_unique_names (corpusColNames c) jc.2, vals jc.1)] }) c).rows
          = c.rows) ∧
      ((cols.foldl (fun c jc =>
          { c with extraCols := c.extraCols ++
              [(get_unique_names (corpusColNames c) jc.2, vals jc.1)] }) c).hasCategoryColumn
          = c.hasCategoryColumn) ∧
      ((cols.foldl (fun c jc =>
          { c with extraCols := c.extraCols ++
              [(get_unique_names (corpusColNames c) jc.2, vals jc.1)] }) c).extraCols.map Prod.snd
          = c.extraCols.map Prod.snd ++ cols.map (fun jc => vals jc.1)) ∧
      ((corpusColNames c).Nodup →
        (corpusColNames (cols.foldl (fun c jc =>
          { c with extraCols := c.extraCols ++
              [(get_unique_names (corpusColNames c) jc.2, vals jc.1)] }) c)).Nodup) := by
  intro cols
  induction cols with
  | nil => intro c; simp
  | cons jc rest ih =>
    intro c
    rcases ih { c with extraCols := c.extraCols ++
        [(get_unique_names (corpusColNames c) jc.2, vals jc.1)] } with
      ⟨hrows, hcat, hsnd, hnodup⟩
    refine ⟨by simpa using hrows, by simpa using hcat, ?_, ?_⟩
    · rw [List.foldl_cons, hsnd]
      simp [List.append_assoc]
    · intro hnd
      apply hnodup
      rw [corpusColNames_append]
      rw [List.nodup_append]
      exact ⟨hnd, List.nodup_singleton _,
        by simpa using get_unique_names_not_mem (corpusColNames c) jc.2⟩

/-- Helper: deduplication never changes what a lookup finds — the first
occurrence of each key wins either way. -/
theorem metaKeyedDedup_find? (startdir : String) (meta : MetaTable) (p : String) :
    (metaKeyedDedup startdir meta).find? (fun kr => kr.1 == some p) =
      (metaKeyed startdir meta).find? (fun kr => kr.1 == some p) := by
  unfold metaKeyedDedup
  by_cases hnod : ((metaKeyed startdir meta).map Prod.fst).Nodup
  · rw [if_pos hnod]
  · rw [if_neg hnod]
    exact find?_dedupKeysFirst (some p) (metaKeyed startdir meta) [] (by simp)

/-- Helper: the reindexed value of column `j` at each corpus path is the
`j`-th cell of the first metadata row whose key matches that path. -/
theorem metaFiltered_value (startdir : String) (corpus : CorpusModel)
    (meta : MetaTable) (j : Nat) :
    (metaFiltered startdir corpus meta).map
        (fun row? => row?.bind (fun r => (r.get? j).join)) =
      (corpusPaths corpus).map (fun p =>
        ((metaKeyed startdir meta).find? (fun kr => kr.1 == some p)).bind
          (fun kr => (kr.2.get? j).join)) := by
  unfold metaFiltered
  rw [List.map_map]
  apply List.map_congr_left
  intro p _
  simp only [Function.comp]
  rw [metaKeyedDedup_find?]
  cases hf : (metaKeyed startdir meta).find? (fun kr => kr.1 == some p) <;> simp

/-- C6: when the metadata table has the file-reference column, the join
runs (not the `AttributeError` path), keeps the corpus rows and category
column intact, appends one string column per metadata column — in
order, each value list aligned with the corpus's `path` column where a
missing key yields a missing value and a duplicated key yields the
first-occurrence row — and keeps the corpus column names
duplicate-free. -/
theorem c6_metadata_join_dedups_aligns_uniquely (startdir : String)
    (corpus : CorpusModel) (meta : MetaTable)
    (hk : META_DATA_FILE_KEY ∈ meta.columns)
    (hnodup : (corpusColNames corpus).Nodup) :
    ∃ c', addMetadata startdir (some corpus) (some meta) = .ok (some c') ∧
      c'.rows = corpus.rows ∧
      c'.hasCategoryColumn = corpus.hasCategoryColumn ∧
      c'.extraCols.map Prod.snd = corpus.extraCols.map Prod.snd ++
        meta.columns.enum.map (fun jc =>
          (corpusPaths corpus).map (fun p =>
            ((metaKeyed startdir meta).find? (fun kr => kr.1 == some p)).bind
              (fun kr => (kr.2.get? jc.1).join))) ∧
      (corpusColNames c').Nodup := by
  refine ⟨joinMeta startdir corpus meta, ?_, ?_⟩
  · unfold addMetadata
    dsimp only
    rw [if_neg (by simp [corpusColNames])]
    rw [if_neg (by simpa using hk)]
  · rcases foldAppend_spec
      (fun j => (metaFiltered startdir corpus meta).map
        (fun row? => row?.bind (fun r => (r.get? j).join)))
      meta.columns.enum corpus with ⟨hrows, hcat, hsnd, hnd⟩
    refine ⟨hrows, hcat, ?_, hnd hnodup⟩
    rw [show joinMeta startdir corpus meta = meta.columns.enum.foldl
        (fun c jc =>
          { c with
            extraCols := c.extraCols ++
              [(get_unique_names (corpusColNames c) jc.2,
                (fun j => (metaFiltered startdir corpus meta).map
                  (fun row? => row?.bind (fun r => (r.get? j).join))) jc.1)] })
        corpus from rfl]
    rw [hsnd]
    congr 1
    apply List.map_congr_left
    intro jc _
    exact metaFiltered_value startdir corpus meta jc.1

/-- C6 witness: a metadata table listing `a.txt` twice — the join keeps
the first-seen row for the duplicated key, aligns by path, and appends
the two metadata columns under fresh names. -/
theorem c6_witness :
    ∃ c', addMetadata "root/" (some corpusTwoRows) (some metaDupKeys) = .ok (some c') ∧
      c'.rows = corpusTwoRows.rows ∧
      c'.hasCategoryColumn = corpusTwoRows.hasCategoryColumn ∧
      c'.extraCols.map Prod.snd = corpusTwoRows.extraCols.map Prod.snd ++
        metaDupKeys.columns.enum.map (fun jc =>
          (corpusPaths corpusTwoRows).map (fun p =>
            ((metaKeyed "root/" metaDupKeys).find? (fun kr => kr.1 == some p)).bind
              (fun kr => (kr.2.get? jc.1).join))) ∧
      (corpusColNames c').Nodup :=
  c6_metadata_join_dedups_aligns_uniquely "root/" corpusTwoRows metaDupKeys
    (by decide) (by decide)

end ImportDocs
